import Mathlib

/-!
Verification of the XML-RPC typed conversion layer (`src/xmlfmt/de.rs` of
`xml-rpc-rs`): a shallow embedding of the Rust data types and `Into`
conversions, together with theorems settling the specification claims.

The generic XML deserializer (`serde_xml_rs::deserialize`) is an external
collaborator; the entry points are therefore modelled as functions of the
deserializer's outcome (`Except Err T`), which is exactly how the Rust code
consumes it (`deserialize(r).chain_err(...)?`).
-/

namespace XmlRpc

/-- The `error-chain` error value, modelled as the chain of context messages,
outermost first. `chain_err` pushes a new context message; `bail!` creates a
fresh single-message error. -/
abbrev Err := List String

/-- Model of `Result::chain_err(|| msg)` on the error path: wraps the existing error
with a new outer context message. -/
def chainErr (msg : String) (e : Err) : Err := msg :: e

/-- Model of `bail!(msg)`: a fresh error carrying a single message. -/
def bailErr (msg : String) : Err := [msg]

/-- The typed XML-RPC value model (`super::Value`). `Struct` carries the
contents of the Rust `HashMap<String, Value>`, modelled as an association
list with unique keys (see `mapInsert`/`mapLookup`/`mapRemove` below);
`Double` carries the parsed numeric value, modelled as an exact rational
(rounding to binary floating point is not modelled). -/
inductive Value where
  | Int (v : Int)
  | Bool (v : Bool)
  | String (v : String)
  | Double (v : Rat)
  | DateTime (v : String)
  | Base64 (v : String)
  | Array (v : List Value)
  | Struct (v : List (String × Value))

/-- The map contents backing `Value.Struct` (Rust `HashMap<String, Value>`). -/
abbrev StructMap := List (String × Value)

/-- Model of `HashMap::insert`: replaces the value of an existing key, otherwise adds
the binding. -/
def mapInsert : StructMap → String → Value → StructMap
  | [], k, v => [(k, v)]
  | (k', v') :: rest, k, v =>
    if k' = k then (k, v) :: rest else (k', v') :: mapInsert rest k v

/-- Model of `HashMap::get`-style lookup. -/
def mapLookup : StructMap → String → Option Value
  | [], _ => none
  | (k', v') :: rest, k => if k' = k then some v' else mapLookup rest k

/-- Model of `HashMap::remove`: returns the removed value (if any) and the remaining
map. -/
def mapRemove : StructMap → String → Option Value × StructMap
  | [], _ => (none, [])
  | (k', v') :: rest, k =>
    if k' = k then (some v', rest)
    else
      let r := mapRemove rest k
      (r.1, (k', v') :: r.2)

/-- Model of `collect::<HashMap<_, _>>()` over a sequence of pairs: repeated
`HashMap::insert` in encounter order, so a later duplicate key overwrites an
earlier one. -/
def fromPairs (l : List (String × Value)) : StructMap :=
  l.foldl (fun m p => mapInsert m p.1 p.2) []

/-- Numeric value of a digit run, most significant first. -/
def digitsToNat (ds : List Char) : Nat :=
  ds.foldl (fun n c => 10 * n + (c.toNat - 48)) 0

/-- Strips an optional leading sign, returning the sign as `1` or `-1`. -/
def splitSign : List Char → Int × List Char
  | '-' :: rest => (-1, rest)
  | '+' :: rest => (1, rest)
  | cs => (1, cs)

/-- Splits a leading run of ASCII digits from the rest. -/
def takeDigits (cs : List Char) : List Char × List Char :=
  (cs.takeWhile Char.isDigit, cs.dropWhile Char.isDigit)

/-- Computes `10 ^ n`, defined by structural recursion. -/
def pow10 : Nat → Nat
  | 0 => 1
  | n + 1 => 10 * pow10 n

/-- Modelled from the spec: the mantissa part of a floating-point literal as
accepted by the standard library's `f64` parsing (`str::parse::<f64>`, an
external collaborator absent from `src/`): a digit run, optionally with a
decimal point, with at least one digit overall. Returns the scaled numerator
and the number of fractional digits (the value is `num / 10 ^ fracLen`),
together with the unconsumed rest. -/
def parseMantissa (cs : List Char) : Option ((Nat × Nat) × List Char) :=
  let ip := takeDigits cs
  match ip.2 with
  | '.' :: rest2 =>
    let fp := takeDigits rest2
    if ip.1.isEmpty ∧ fp.1.isEmpty then none
    else
      some ((digitsToNat ip.1 * pow10 fp.1.length + digitsToNat fp.1, fp.1.length), fp.2)
  | _ => if ip.1.isEmpty then none else some ((digitsToNat ip.1, 0), ip.2)

/-- A signed digit run making up the whole remaining input (the exponent of a
floating-point literal, or an integer literal). -/
def parseSignedDigits (cs : List Char) : Option Int :=
  let s := splitSign cs
  let ds := takeDigits s.2
  if ds.1.isEmpty ∨ ¬ds.2.isEmpty then none else some (s.1 * (digitsToNat ds.1 : Int))

/-- The optional exponent suffix of a floating-point literal. -/
def parseExp : List Char → Option Int
  | [] => some 0
  | 'e' :: rest => parseSignedDigits rest
  | 'E' :: rest => parseSignedDigits rest
  | _ => none

/-- Modelled from the spec: `str::parse::<f64>` (external standard-library
collaborator absent from `src/`), per the spec's "text is parsed as a
floating-point literal". Accepts `[+-]? digits [. digits]? ([eE][+-]?digits)?`
with at least one mantissa digit; yields the exact rational value (the
special values `inf`/`NaN` and the final rounding to binary floating point
are not modelled). Fails on anything else, e.g. `"abc"`. -/
def parseF64 (s : String) : Option Rat :=
  let sg := splitSign s.toList
  match parseMantissa sg.2 with
  | none => none
  | some m =>
    match parseExp m.2 with
    | none => none
    | some e =>
      let num : Int :=
        sg.1 * (m.1.1 : Int) * (if 0 ≤ e then (pow10 e.toNat : Int) else 1)
      let den : Int :=
        (pow10 m.1.2 : Int) * (if 0 ≤ e then 1 else (pow10 (-e).toNat : Int))
      some (Rat.divInt num den)

/-- Modelled from the spec: the error produced by `str::parse::<f64>` on
invalid input, wrapped by the conversion layer. -/
def floatParseErr : Err := ["invalid float literal"]

/-- Modelled from the spec: `str::parse::<i32>` (external standard-library
collaborator absent from `src/`): an optional sign and a digit run, with the
value required to fit a 32-bit signed integer. This is how the generic
deserializer obtains the `i32` payloads of `XmlValue::I4`, `XmlValue::Int`
and `XmlValue::Bool`. -/
def parseI32 (s : String) : Option Int :=
  match parseSignedDigits s.toList with
  | none => none
  | some v => if -(2 ^ 31) ≤ v ∧ v < 2 ^ 31 then some v else none

mutual

/-- The intermediate deserialization model of a `value` node
(`enum XmlValue` in `de.rs`). `I4`, `Int` and `Bool` carry an `i32` payload
(modelled as `Int`; the deserializer only produces values in i32 range),
`Double` carries the raw text. -/
inductive XmlValue where
  | I4 (v : Int)
  | Int (v : Int)
  | Bool (v : Int)
  | Str (v : String)
  | Double (v : String)
  | DateTime (v : String)
  | Base64 (v : String)
  | Array (v : XmlArray)
  | Struct (v : XmlStruct)

/-- Embedding of `struct XmlArray { data: XmlArrayData }`. -/
inductive XmlArray where
  | mk (data : XmlArrayData)

/-- Embedding of `struct XmlArrayData { value: Vec<XmlValue> }`. -/
inductive XmlArrayData where
  | mk (value : List XmlValue)

/-- Embedding of `struct XmlStruct { members: Vec<XmlStructItem> }`. -/
inductive XmlStruct where
  | mk (members : List XmlStructItem)

/-- Embedding of `struct XmlStructItem { name: String, value: XmlValue }`. -/
inductive XmlStructItem where
  | mk (name : String) (value : XmlValue)

end

mutual

/-- Embedding of `impl Into<Result<Value>> for XmlValue` (`de.rs` lines 47–67). -/
def XmlValue.into : XmlValue → Except Err Value
  | XmlValue.I4 v => Except.ok (Value.Int v)
  | XmlValue.Int v => Except.ok (Value.Int v)
  | XmlValue.Bool v => Except.ok (Value.Bool (v != 0))
  | XmlValue.Str v => Except.ok (Value.String v)
  | XmlValue.Double v =>
    match parseF64 v with
    | some d => Except.ok (Value.Double d)
    | none => Except.error (chainErr "Failed to parse double" floatParseErr)
  | XmlValue.DateTime v => Except.ok (Value.DateTime v)
  | XmlValue.Base64 v => Except.ok (Value.Base64 v)
  | XmlValue.Array v =>
    match XmlArray.into v with
    | Except.ok items => Except.ok (Value.Array items)
    | Except.error e => Except.error e
  | XmlValue.Struct v =>
    match XmlStruct.into v with
    | Except.ok items => Except.ok (Value.Struct items)
    | Except.error e => Except.error e

/-- Embedding of `impl Into<Result<Vec<Value>>> for XmlArray`. -/
def XmlArray.into : XmlArray → Except Err (List Value)
  | XmlArray.mk data => XmlArrayData.into data

/-- Embedding of `impl Into<Result<Vec<Value>>> for XmlArrayData`: maps each child through
`XmlValue::into` and collects, aborting at the first failure. -/
def XmlArrayData.into : XmlArrayData → Except Err (List Value)
  | XmlArrayData.mk value => intoValueList value

/-- Model of `.map(Into::<Result<Value>>::into).collect::<Result<Vec<Value>>>()`:
converts in order, stopping at the first error. -/
def intoValueList : List XmlValue → Except Err (List Value)
  | [] => Except.ok []
  | x :: xs =>
    match XmlValue.into x with
    | Except.error e => Except.error e
    | Except.ok v =>
      match intoValueList xs with
      | Except.error e => Except.error e
      | Except.ok vs => Except.ok (v :: vs)

/-- Embedding of `impl Into<Result<HashMap<String, Value>>> for XmlStruct`: converts each
member to a pair and collects into the map (later duplicates overwrite). -/
def XmlStruct.into : XmlStruct → Except Err StructMap
  | XmlStruct.mk members =>
    match intoStructItems members with
    | Except.error e => Except.error e
    | Except.ok pairs => Except.ok (fromPairs pairs)

/-- Model of `.map(Into::<Result<(String, Value)>>::into)` over the member list,
collected with abort-on-first-error. -/
def intoStructItems : List XmlStructItem → Except Err (List (String × Value))
  | [] => Except.ok []
  | x :: xs =>
    match XmlStructItem.into x with
    | Except.error e => Except.error e
    | Except.ok p =>
      match intoStructItems xs with
      | Except.error e => Except.error e
      | Except.ok ps => Except.ok (p :: ps)

/-- Embedding of `impl Into<Result<(String, Value)>> for XmlStructItem`. -/
def XmlStructItem.into : XmlStructItem → Except Err (String × Value)
  | XmlStructItem.mk name value =>
    match XmlValue.into value with
    | Except.error e => Except.error e
    | Except.ok v => Except.ok (name, v)

end

/-- Embedding of `struct XmlParamData { value: XmlValue }`. -/
structure XmlParamData where
  value : XmlValue

/-- Embedding of `struct XmlParams { params: Vec<XmlParamData> }`. -/
structure XmlParams where
  params : List XmlParamData

/-- Embedding of `struct XmlCall { name: String, params: XmlParams }`. -/
structure XmlCall where
  name : String
  params : XmlParams

/-- Embedding of `enum XmlResponseResult { Success(XmlParams), Failure { value: XmlValue } }`. -/
inductive XmlResponseResult where
  | Success (params : XmlParams)
  | Failure (value : XmlValue)

/-- Embedding of `enum XmlResponse { Response(XmlResponseResult) }`. -/
inductive XmlResponse where
  | Response (v : XmlResponseResult)

/-- The typed call model (`super::Call`). -/
structure Call where
  name : String
  params : List Value

/-- The typed response model (`super::Response`). -/
inductive Response where
  | Success (params : List Value)
  | Fault (code : Int) (message : String)

/-- Embedding of `impl Into<Result<Value>> for XmlParamData`. -/
def XmlParamData.into (p : XmlParamData) : Except Err Value :=
  XmlValue.into p.value

/-- The order-preserving abort-on-first-error collect over the `param`
wrappers. -/
def intoParamList : List XmlParamData → Except Err (List Value)
  | [] => Except.ok []
  | x :: xs =>
    match XmlParamData.into x with
    | Except.error e => Except.error e
    | Except.ok v =>
      match intoParamList xs with
      | Except.error e => Except.error e
      | Except.ok vs => Except.ok (v :: vs)

/-- Embedding of `impl Into<Result<Vec<Value>>> for XmlParams`:
`.map(Into::<Result<Value>>::into).collect()`, converting the wrapped values
in order and aborting at the first failure. -/
def XmlParams.into (p : XmlParams) : Except Err (List Value) :=
  intoParamList p.params

/-- Embedding of `impl Into<Result<Call>> for XmlCall`. -/
def XmlCall.into (c : XmlCall) : Except Err Call :=
  match XmlParams.into c.params with
  | Except.error e => Except.error e
  | Except.ok params => Except.ok { name := c.name, params := params }

/-- Embedding of `impl Into<Result<Response>> for XmlResponseResult` (`de.rs` lines
95–125): the success path converts the param array; the fault path converts
the inner value, requires a struct, and removes and type-checks `faultCode`
and `faultString` with distinct missing/wrong-type errors. -/
def XmlResponseResult.into : XmlResponseResult → Except Err Response
  | XmlResponseResult.Success params =>
    match XmlParams.into params with
    | Except.error e => Except.error e
    | Except.ok ps => Except.ok (Response.Success ps)
  | XmlResponseResult.Failure v =>
    match XmlValue.into v with
    | Except.error e => Except.error e
    | Except.ok val =>
      match val with
      | Value.Struct fields =>
        let rc := mapRemove fields "faultCode"
        match rc.1 with
        | some (Value.Int code) =>
          let rm := mapRemove rc.2 "faultString"
          match rm.1 with
          | some (Value.String message) => Except.ok (Response.Fault code message)
          | some _ => Except.error (bailErr "Field \"faultString\" needs to be a string")
          | none => Except.error (bailErr "Field \"faultString\" is missing in fault response")
        | some _ => Except.error (bailErr "Field \"faultCode\" needs to be an integer")
        | none => Except.error (bailErr "Field \"faultCode\" is missing in fault response")
      | _ => Except.error (bailErr "Illegal response structure for fault case.")

/-- Embedding of `impl Into<Result<Response>> for XmlResponse`. -/
def XmlResponse.into : XmlResponse → Except Err XmlRpc.Response
  | XmlResponse.Response v => XmlResponseResult.into v

/-- Embedding of `parse_xml` (`de.rs` lines 8–11), as a function of the outcome of the
external generic deserializer: a deserializer failure is wrapped with the
domain context message, a deserialized tree is fed to `XmlValue::into`. -/
def parse_xml (d : Except Err XmlValue) : Except Err Value :=
  match d with
  | Except.error e => Except.error (chainErr "Failed to parse XML-RPC data." e)
  | Except.ok data => XmlValue.into data

/-- Embedding of `parse_call` (`de.rs` lines 13–16), as a function of the deserializer's
outcome. -/
def parse_call (d : Except Err XmlCall) : Except Err Call :=
  match d with
  | Except.error e => Except.error (chainErr "Failed to parse XML-RPC call." e)
  | Except.ok data => XmlCall.into data

/-- Embedding of `parse_response` (`de.rs` lines 18–23), as a function of the
deserializer's outcome. -/
def parse_response (d : Except Err XmlResponse) : Except Err Response :=
  match d with
  | Except.error e => Except.error (chainErr "Failed to parse XML-RPC response." e)
  | Except.ok data => XmlResponse.into data

/-- Modelled from the spec: the generic deserializer (`serde_xml_rs`,
external, absent from `src/`) fills the `i32` payload of the declaration
`XmlValue::Bool(i32)` (`de.rs` lines 31–32) by parsing the boolean node's
text content as a 32-bit signed integer, failing on anything else. -/
def decodeBooleanNode (text : String) : Except Err XmlValue :=
  match parseI32 text with
  | some v => Except.ok (XmlValue.Bool v)
  | none => Except.error (bailErr "invalid digit found in string")

/-- Full pipeline for a boolean node: generic deserialization of the text
content followed by `XmlValue::into`. -/
def convertBooleanNode (text : String) : Except Err Value :=
  match decodeBooleanNode text with
  | Except.error e => Except.error e
  | Except.ok x => XmlValue.into x

/-! ## Lemmas on the `HashMap` model -/

theorem mapRemove_fst (m : StructMap) (k : String) :
    (mapRemove m k).1 = mapLookup m k := by
  induction m with
  | nil => rfl
  | cons p rest ih =>
    obtain ⟨a, b⟩ := p
    simp only [mapRemove, mapLookup]
    split <;> simp [ih]

theorem mapLookup_mapRemove_snd (m : StructMap) (k k' : String) (h : k' ≠ k) :
    mapLookup (mapRemove m k).2 k' = mapLookup m k' := by
  induction m with
  | nil => rfl
  | cons p rest ih =>
    obtain ⟨a, b⟩ := p
    by_cases hak : a = k
    · have hak' : ¬a = k' := fun h' => h (h'.symm.trans hak)
      simp [mapRemove, mapLookup, hak, hak', Ne.symm h]
    · simp only [mapRemove, if_neg hak, mapLookup]
      split <;> simp [ih]

theorem mapLookup_mapInsert (m : StructMap) (k k' : String) (v : Value) :
    mapLookup (mapInsert m k v) k' = if k = k' then some v else mapLookup m k' := by
  induction m with
  | nil => simp [mapInsert, mapLookup]
  | cons p rest ih =>
    obtain ⟨a, b⟩ := p
    simp only [mapInsert]
    by_cases hak : a = k
    · simp only [if_pos hak, mapLookup]
      by_cases hkk : k = k'
      · rw [if_pos hkk, if_pos hkk]
      · rw [if_neg hkk, if_neg hkk, if_neg (fun h' => hkk (hak.symm.trans h'))]
    · simp only [if_neg hak, mapLookup, ih]
      by_cases hka : a = k'
      · have hkk' : ¬k = k' := fun h' => hak (hka.trans h'.symm)
        rw [if_pos hka, if_neg hkk', if_pos hka]
      · rw [if_neg hka, if_neg hka]

theorem mapLookup_foldl_mapInsert (l : List (String × Value)) (acc : StructMap)
    (k : String) :
    mapLookup (l.foldl (fun m p => mapInsert m p.1 p.2) acc) k =
      match mapLookup l.reverse k with
      | some v => some v
      | none => mapLookup acc k := by
  induction l generalizing acc with
  | nil => simp [mapLookup]
  | cons p l ih =>
    obtain ⟨a, b⟩ := p
    simp only [List.foldl_cons, List.reverse_cons, ih]
    have happ : ∀ (x y : StructMap) (k : String),
        mapLookup (x ++ y) k =
          match mapLookup x k with
          | some v => some v
          | none => mapLookup y k := by
      intro x y k
      induction x with
      | nil => simp [mapLookup]
      | cons q x ihx =>
        obtain ⟨c, d⟩ := q
        simp only [List.cons_append, mapLookup]
        split <;> simp [ihx]
    rw [happ]
    rcases hrev : mapLookup l.reverse k with _ | w
    · simp only [mapLookup_mapInsert]
      rw [mapLookup]
      by_cases hak : a = k
      · simp [hak]
      · simp [hak, mapLookup]
    · simp

theorem mapLookup_fromPairs (l : List (String × Value)) (k : String) :
    mapLookup (fromPairs l) k = mapLookup l.reverse k := by
  rw [fromPairs, mapLookup_foldl_mapInsert]
  rcases h : mapLookup l.reverse k with _ | w <;> simp [mapLookup]

/-! ## Lemmas on the collect conversions -/

theorem intoValueList_ok_iff (vs : List XmlValue) (rs : List Value) :
    intoValueList vs = Except.ok rs ↔
      List.Forall₂ (fun v r => XmlValue.into v = Except.ok r) vs rs := by
  induction vs generalizing rs with
  | nil =>
    constructor
    · intro h
      cases h
      exact List.Forall₂.nil
    · intro h
      cases h
      rfl
  | cons x xs ih =>
    rw [intoValueList]
    rcases hx : XmlValue.into x with e | v
    · constructor
      · intro h
        cases h
      · intro h
        cases h with
        | cons h1 _ => rw [hx] at h1; cases h1
    · rcases hxs : intoValueList xs with e' | vs'
      · constructor
        · intro h
          cases h
        · intro h
          cases h with
          | cons _ h2 =>
            rw [← ih] at h2
            rw [hxs] at h2
            cases h2
      · constructor
        · intro h
          cases h
          exact List.Forall₂.cons hx ((ih vs').mp hxs)
        · intro h
          cases h with
          | cons h1 h2 =>
            rw [hx] at h1
            cases h1
            rw [← ih] at h2
            rw [hxs] at h2
            cases h2
            rfl

theorem intoValueList_error (vs : List XmlValue) (e : Err)
    (h : intoValueList vs = Except.error e) :
    ∃ pre x post, vs = pre ++ x :: post ∧
      (∀ u ∈ pre, ∃ r, XmlValue.into u = Except.ok r) ∧
      XmlValue.into x = Except.error e := by
  induction vs with
  | nil => cases h
  | cons x xs ih =>
    rw [intoValueList] at h
    rcases hx : XmlValue.into x with e' | v
    · rw [hx] at h
      cases h
      exact ⟨[], x, xs, rfl, by simp, hx⟩
    · rw [hx] at h
      rcases hxs : intoValueList xs with e' | vs'
      · rw [hxs] at h
        cases h
        obtain ⟨pre, y, post, heq, hpre, hy⟩ := ih hxs
        refine ⟨x :: pre, y, post, by simp [heq], ?_, hy⟩
        intro u hu
        rcases List.mem_cons.mp hu with hu | hu
        · exact ⟨v, by rw [hu]; exact hx⟩
        · exact hpre u hu
      · rw [hxs] at h
        cases h

theorem intoParamList_ok_iff (ps : List XmlParamData) (rs : List Value) :
    intoParamList ps = Except.ok rs ↔
      List.Forall₂ (fun p r => XmlValue.into p.value = Except.ok r) ps rs := by
  induction ps generalizing rs with
  | nil =>
    constructor
    · intro h
      cases h
      exact List.Forall₂.nil
    · intro h
      cases h
      rfl
  | cons x xs ih =>
    rw [intoParamList]
    rw [XmlParamData.into]
    rcases hx : XmlValue.into x.value with e | v
    · constructor
      · intro h
        cases h
      · intro h
        cases h with
        | cons h1 _ => rw [hx] at h1; cases h1
    · rcases hxs : intoParamList xs with e' | vs'
      · constructor
        · intro h
          cases h
        · intro h
          cases h with
          | cons _ h2 =>
            rw [← ih] at h2
            rw [hxs] at h2
            cases h2
      · constructor
        · intro h
          cases h
          exact List.Forall₂.cons hx ((ih vs').mp hxs)
        · intro h
          cases h with
          | cons h1 h2 =>
            rw [hx] at h1
            cases h1
            rw [← ih] at h2
            rw [hxs] at h2
            cases h2
            rfl

/-! ## Claim theorems -/

/-- C2 (counterexample): the claim says a fault-structure failure inside
`parse_response` is surfaced wrapped in "Failed to parse XML-RPC response.".
In the code the context message is attached only to the deserialize step, so
the fault-structure failure propagates unchanged: at the concrete
deserialized input `methodResponse/fault` holding a plain string, the result
is exactly the bare "Illegal response structure for fault case." error, which
differs from the wrapped error the claim requires. -/
theorem entry_error_context_cex :
    parse_response
        (Except.ok (XmlResponse.Response (XmlResponseResult.Failure (XmlValue.Str "x"))))
      = Except.error ["Illegal response structure for fault case."] ∧
    (["Illegal response structure for fault case."] : Err)
      ≠ chainErr "Failed to parse XML-RPC response."
          (bailErr "Illegal response structure for fault case.") := by
  constructor
  · rfl
  · decide

/-- C2 (amended): when the generic deserialize step of an entry point fails,
the returned error carries that entry point's domain context message
("Failed to parse XML-RPC data/call/response.") wrapping the underlying
failure; when deserialization succeeds, the converter's result — including
any conversion failure, such as the fault-structure failure — is returned
unchanged, without the context message. -/
theorem entry_error_context :
    (∀ e, parse_xml (Except.error e)
      = Except.error (chainErr "Failed to parse XML-RPC data." e)) ∧
    (∀ e, parse_call (Except.error e)
      = Except.error (chainErr "Failed to parse XML-RPC call." e)) ∧
    (∀ e, parse_response (Except.error e)
      = Except.error (chainErr "Failed to parse XML-RPC response." e)) ∧
    (∀ d, parse_xml (Except.ok d) = XmlValue.into d) ∧
    (∀ d, parse_call (Except.ok d) = XmlCall.into d) ∧
    (∀ d, parse_response (Except.ok d) = XmlResponse.into d) :=
  ⟨fun _ => rfl, fun _ => rfl, fun _ => rfl, fun _ => rfl, fun _ => rfl, fun _ => rfl⟩

/-- C3: a `double` node converts to `Value.Double` of the parsed numeric
value when the text is a valid floating-point literal ("3.14" yields exactly
3.14) and otherwise fails with "Failed to parse double" wrapping the
underlying parse failure; every other scalar conversion always succeeds, so
none has an independent failure path. -/
theorem double_parse_behavior :
    (∀ t, XmlValue.into (XmlValue.Double t) =
      match parseF64 t with
      | some d => Except.ok (Value.Double d)
      | none => Except.error (chainErr "Failed to parse double" floatParseErr)) ∧
    XmlValue.into (XmlValue.Double "3.14") = Except.ok (Value.Double 3.14) ∧
    XmlValue.into (XmlValue.Double "abc")
      = Except.error (chainErr "Failed to parse double" floatParseErr) ∧
    (∀ v, XmlValue.into (XmlValue.I4 v) = Except.ok (Value.Int v)) ∧
    (∀ v, XmlValue.into (XmlValue.Int v) = Except.ok (Value.Int v)) ∧
    (∀ v, XmlValue.into (XmlValue.Bool v) = Except.ok (Value.Bool (v != 0))) ∧
    (∀ s, XmlValue.into (XmlValue.Str s) = Except.ok (Value.String s)) ∧
    (∀ s, XmlValue.into (XmlValue.DateTime s) = Except.ok (Value.DateTime s)) ∧
    (∀ s, XmlValue.into (XmlValue.Base64 s) = Except.ok (Value.Base64 s)) := by
  refine ⟨fun t => rfl, ?_, rfl, fun v => rfl, fun v => rfl, fun v => rfl,
    fun s => rfl, fun s => rfl, fun s => rfl⟩
  have h : XmlValue.into (XmlValue.Double "3.14")
      = Except.ok (Value.Double (Rat.divInt 314 100)) := rfl
  rw [h]
  norm_num [Rat.divInt_eq_div]

/-- C6: an `array` node converts each child value node of its data container
in wire order: conversion of the child list succeeds exactly when every child
converts, yielding the results in the same order (`List.Forall₂`), and a
failing conversion yields the error of the first failing child unchanged,
all earlier children having converted successfully. -/
theorem array_order_and_first_error :
    (∀ vs, XmlValue.into (XmlValue.Array (XmlArray.mk (XmlArrayData.mk vs))) =
      match intoValueList vs with
      | Except.ok items => Except.ok (Value.Array items)
      | Except.error e => Except.error e) ∧
    (∀ vs rs, intoValueList vs = Except.ok rs ↔
      List.Forall₂ (fun v r => XmlValue.into v = Except.ok r) vs rs) ∧
    (∀ vs e, intoValueList vs = Except.error e →
      ∃ pre x post, vs = pre ++ x :: post ∧
        (∀ u ∈ pre, ∃ r, XmlValue.into u = Except.ok r) ∧
        XmlValue.into x = Except.error e) :=
  ⟨fun _ => rfl, intoValueList_ok_iff, intoValueList_error⟩

/-- C6 witness: the first-failure decomposition at a concrete array whose
second child is an invalid double, and the order-preserving success
characterization at the spec's round-trip array `[Int 1, String "a",
Bool true]`. -/
theorem array_order_and_first_error_witness :
    (∃ pre x post,
      [XmlValue.Int 1, XmlValue.Double "abc", XmlValue.Int 2] = pre ++ x :: post ∧
      (∀ u ∈ pre, ∃ r, XmlValue.into u = Except.ok r) ∧
      XmlValue.into x = Except.error (chainErr "Failed to parse double" floatParseErr)) ∧
    List.Forall₂ (fun v r => XmlValue.into v = Except.ok r)
      [XmlValue.Int 1, XmlValue.Str "a", XmlValue.Bool 1]
      [Value.Int 1, Value.String "a", Value.Bool true] :=
  ⟨array_order_and_first_error.2.2 _ _ (by rfl),
   (array_order_and_first_error.2.1 _ _).mp (by rfl)⟩

/-- C7: a boolean node with integer content 0 converts to `Value.Bool false`;
any non-zero integer content converts to `Value.Bool true`. -/
theorem bool_zero_nonzero :
    XmlValue.into (XmlValue.Bool 0) = Except.ok (Value.Bool false) ∧
    (∀ v : Int, v ≠ 0 →
      XmlValue.into (XmlValue.Bool v) = Except.ok (Value.Bool true)) := by
  refine ⟨rfl, fun v hv => ?_⟩
  have hb : (v != 0) = true := by simpa using hv
  show Except.ok (Value.Bool (v != 0)) = Except.ok (Value.Bool true)
  rw [hb]

/-- C7 witness: the 0/non-zero rule evaluated at the concrete contents 1, 2
and -5. -/
theorem bool_zero_nonzero_witness :
    XmlValue.into (XmlValue.Bool 1) = Except.ok (Value.Bool true) ∧
    XmlValue.into (XmlValue.Bool 2) = Except.ok (Value.Bool true) ∧
    XmlValue.into (XmlValue.Bool (-5)) = Except.ok (Value.Bool true) :=
  ⟨bool_zero_nonzero.2 1 (by decide), bool_zero_nonzero.2 2 (by decide),
   bool_zero_nonzero.2 (-5) (by decide)⟩

/-- C8: for every value in 32-bit signed range, a node under the `i4` tag and
a node under the `int` tag convert identically, both to `Value.Int` of that
value: the tag choice has no observable effect on the output. -/
theorem i4_int_agree (v : Int) (h : -(2 ^ 31) ≤ v ∧ v < 2 ^ 31) :
    XmlValue.into (XmlValue.I4 v) = XmlValue.into (XmlValue.Int v) ∧
    XmlValue.into (XmlValue.Int v) = Except.ok (Value.Int v) :=
  ⟨rfl, rfl⟩

/-- C8 witness: the i4/int agreement evaluated at 41. -/
theorem i4_int_agree_witness :
    XmlValue.into (XmlValue.I4 41) = XmlValue.into (XmlValue.Int 41) ∧
    XmlValue.into (XmlValue.Int 41) = Except.ok (Value.Int 41) :=
  i4_int_agree 41 (by decide)

/-- C10: the content of a boolean node is deserialized as a 32-bit signed
integer before the 0/non-zero rule applies: text that is not a valid i32
(such as "true" or an out-of-range integer) makes the whole conversion fail
with no `Value.Bool` produced, while valid i32 text yields the 0/non-zero
boolean. -/
theorem boolean_content_is_i32 :
    (∀ t, parseI32 t = none →
      convertBooleanNode t = Except.error (bailErr "invalid digit found in string")) ∧
    (∀ t v, parseI32 t = some v →
      convertBooleanNode t = Except.ok (Value.Bool (v != 0))) := by
  constructor
  · intro t ht
    simp only [convertBooleanNode, decodeBooleanNode, ht]
  · intro t v hv
    simp only [convertBooleanNode, decodeBooleanNode, hv]
    rfl

/-- C10 witness: the boolean pipeline fails on "true", "false" and the
out-of-range "2147483648", and succeeds on "1". -/
theorem boolean_content_is_i32_witness :
    convertBooleanNode "true" = Except.error (bailErr "invalid digit found in string") ∧
    convertBooleanNode "false" = Except.error (bailErr "invalid digit found in string") ∧
    convertBooleanNode "2147483648" = Except.error (bailErr "invalid digit found in string") ∧
    convertBooleanNode "1" = Except.ok (Value.Bool ((1 : Int) != 0)) :=
  ⟨boolean_content_is_i32.1 "true" (by decide),
   boolean_content_is_i32.1 "false" (by decide),
   boolean_content_is_i32.1 "2147483648" (by decide),
   boolean_content_is_i32.2 "1" 1 (by decide)⟩

/-- C4: a struct node whose members all convert succeeds even when member
names repeat, and the resulting `Value.Struct` maps each name to the value of
the last member carrying it in wire order (lookup in the reversed pair list
returns the last occurrence). -/
theorem struct_last_write_wins (members : List XmlStructItem)
    (pairs : List (String × Value))
    (h : intoStructItems members = Except.ok pairs) :
    XmlValue.into (XmlValue.Struct (XmlStruct.mk members))
      = Except.ok (Value.Struct (fromPairs pairs)) ∧
    ∀ k, mapLookup (fromPairs pairs) k = mapLookup pairs.reverse k := by
  constructor
  · show (match XmlStruct.into (XmlStruct.mk members) with
        | Except.ok items => Except.ok (Value.Struct items)
        | Except.error e => Except.error e)
      = Except.ok (Value.Struct (fromPairs pairs))
    show (match (match intoStructItems members with
          | Except.error e => Except.error e
          | Except.ok ps => Except.ok (fromPairs ps)) with
        | Except.ok items => Except.ok (Value.Struct items)
        | Except.error e => Except.error e)
      = Except.ok (Value.Struct (fromPairs pairs))
    rw [h]
  · exact fun k => mapLookup_fromPairs pairs k

/-- C4 witness: the duplicate members `a ↦ Int 1` then `a ↦ Int 2` convert
successfully, and the resulting map sends "a" to `Int 2`. -/
theorem struct_last_write_wins_witness :
    (XmlValue.into (XmlValue.Struct (XmlStruct.mk
        [XmlStructItem.mk "a" (XmlValue.Int 1), XmlStructItem.mk "a" (XmlValue.Int 2)]))
      = Except.ok (Value.Struct (fromPairs [("a", Value.Int 1), ("a", Value.Int 2)])) ∧
     ∀ k, mapLookup (fromPairs [("a", Value.Int 1), ("a", Value.Int 2)]) k
        = mapLookup [("a", Value.Int 1), ("a", Value.Int 2)].reverse k) ∧
    fromPairs [("a", Value.Int 1), ("a", Value.Int 2)] = [("a", Value.Int 2)] :=
  ⟨struct_last_write_wins _ _ (by rfl), by rfl⟩

/-- C9: the methodResponse success path and the methodCall path run the very
same param-array conversion: on the same `params` subtree they succeed
together with equal value lists (preserving the wire order of the `param`
elements, witnessed by `List.Forall₂`) and fail together with the same
error. -/
theorem success_params_match_call_params :
    (∀ name p ps, XmlParams.into p = Except.ok ps →
      XmlCall.into (XmlCall.mk name p) = Except.ok (Call.mk name ps) ∧
      XmlResponseResult.into (XmlResponseResult.Success p)
        = Except.ok (Response.Success ps) ∧
      List.Forall₂ (fun pd r => XmlValue.into pd.value = Except.ok r) p.params ps) ∧
    (∀ name p e, XmlParams.into p = Except.error e →
      XmlCall.into (XmlCall.mk name p) = Except.error e ∧
      XmlResponseResult.into (XmlResponseResult.Success p) = Except.error e) := by
  constructor
  · intro name p ps h
    refine ⟨?_, ?_, (intoParamList_ok_iff p.params ps).mp h⟩
    · show (match XmlParams.into p with
          | Except.error e => Except.error e
          | Except.ok params => Except.ok (Call.mk name params))
        = Except.ok (Call.mk name ps)
      rw [h]
    · show (match XmlParams.into p with
          | Except.error e => Except.error e
          | Except.ok qs => Except.ok (Response.Success qs))
        = Except.ok (Response.Success ps)
      rw [h]
  · intro name p e h
    constructor
    · show (match XmlParams.into p with
          | Except.error e => Except.error e
          | Except.ok params => Except.ok (Call.mk name params))
        = Except.error e
      rw [h]
    · show (match XmlParams.into p with
          | Except.error e => Except.error e
          | Except.ok qs => Except.ok (Response.Success qs))
        = Except.error e
      rw [h]

/-- C9 witness: the spec's concrete call `examples.getStateName` with the
single `int` param 41: both envelope conversions yield the same singleton
param list, in order. -/
theorem success_params_match_call_params_witness :
    XmlCall.into (XmlCall.mk "examples.getStateName"
        (XmlParams.mk [XmlParamData.mk (XmlValue.Int 41)]))
      = Except.ok (Call.mk "examples.getStateName" [Value.Int 41]) ∧
    XmlResponseResult.into (XmlResponseResult.Success
        (XmlParams.mk [XmlParamData.mk (XmlValue.Int 41)]))
      = Except.ok (Response.Success [Value.Int 41]) ∧
    List.Forall₂ (fun pd r => XmlValue.into pd.value = Except.ok r)
      (XmlParams.mk [XmlParamData.mk (XmlValue.Int 41)]).params [Value.Int 41] :=
  success_params_match_call_params.1 "examples.getStateName"
    (XmlParams.mk [XmlParamData.mk (XmlValue.Int 41)]) [Value.Int 41] (by rfl)

/-- C1: whenever the fault path of a methodResponse conversion returns
successfully, the converted fault value was a `Value.Struct` whose
"faultCode" entry is a `Value.Int` and whose "faultString" entry is a
`Value.String`, and the result is exactly `Response.Fault` of those two
entries — never a partial or default-filled fault, with every other field of
the struct discarded. -/
theorem fault_requires_typed_struct (v : XmlValue) (r : Response)
    (h : XmlResponseResult.into (XmlResponseResult.Failure v) = Except.ok r) :
    ∃ fields code message,
      XmlValue.into v = Except.ok (Value.Struct fields) ∧
      mapLookup fields "faultCode" = some (Value.Int code) ∧
      mapLookup fields "faultString" = some (Value.String message) ∧
      r = Response.Fault code message := by
  rw [XmlResponseResult.into] at h
  rcases hv : XmlValue.into v with e | val
  · rw [hv] at h; cases h
  · rw [hv] at h
    cases val with
    | Struct fields =>
      simp only [] at h
      rcases hc : (mapRemove fields "faultCode").1 with _ | x
      · rw [hc] at h; cases h
      · rw [hc] at h
        cases x with
        | Int code =>
          rcases hm : (mapRemove (mapRemove fields "faultCode").2 "faultString").1 with _ | y
          · rw [hm] at h; cases h
          · rw [hm] at h
            cases y with
            | String message =>
              cases h
              refine ⟨fields, code, message, rfl, ?_, ?_, rfl⟩
              · rw [← mapRemove_fst]; exact hc
              · rw [← mapLookup_mapRemove_snd fields "faultCode" "faultString" (by decide),
                  ← mapRemove_fst]
                exact hm
            | Int a => cases h
            | Bool a => cases h
            | Double a => cases h
            | DateTime a => cases h
            | Base64 a => cases h
            | Array a => cases h
            | Struct a => cases h
        | String a => cases h
        | Bool a => cases h
        | Double a => cases h
        | DateTime a => cases h
        | Base64 a => cases h
        | Array a => cases h
        | Struct a => cases h
    | Int a => cases h
    | Bool a => cases h
    | String a => cases h
    | Double a => cases h
    | DateTime a => cases h
    | Base64 a => cases h
    | Array a => cases h

/-- C1 witness: the spec's concrete fault struct with code 4, message "Too
many parameters." and an extra discarded field converts to exactly that
`Response.Fault`. -/
theorem fault_requires_typed_struct_witness :
    ∃ fields code message,
      XmlValue.into (XmlValue.Struct (XmlStruct.mk
          [XmlStructItem.mk "faultCode" (XmlValue.Int 4),
           XmlStructItem.mk "faultString" (XmlValue.Str "Too many parameters."),
           XmlStructItem.mk "extra" (XmlValue.Str "ignored")]))
        = Except.ok (Value.Struct fields) ∧
      mapLookup fields "faultCode" = some (Value.Int code) ∧
      mapLookup fields "faultString" = some (Value.String message) ∧
      Response.Fault 4 "Too many parameters." = Response.Fault code message :=
  fault_requires_typed_struct _ _ (by rfl)

/-- C5: the fault-path conversion distinguishes missing from wrong-typed
required fields with distinct error messages, for both "faultCode" and
"faultString". -/
theorem fault_missing_vs_wrong_type :
    (∀ v fields, XmlValue.into v = Except.ok (Value.Struct fields) →
      mapLookup fields "faultCode" = none →
      XmlResponseResult.into (XmlResponseResult.Failure v)
        = Except.error (bailErr "Field \"faultCode\" is missing in fault response")) ∧
    (∀ v fields x, XmlValue.into v = Except.ok (Value.Struct fields) →
      mapLookup fields "faultCode" = some x → (∀ c, x ≠ Value.Int c) →
      XmlResponseResult.into (XmlResponseResult.Failure v)
        = Except.error (bailErr "Field \"faultCode\" needs to be an integer")) ∧
    (∀ v fields code, XmlValue.into v = Except.ok (Value.Struct fields) →
      mapLookup fields "faultCode" = some (Value.Int code) →
      mapLookup fields "faultString" = none →
      XmlResponseResult.into (XmlResponseResult.Failure v)
        = Except.error (bailErr "Field \"faultString\" is missing in fault response")) ∧
    (∀ v fields code y, XmlValue.into v = Except.ok (Value.Struct fields) →
      mapLookup fields "faultCode" = some (Value.Int code) →
      mapLookup fields "faultString" = some y → (∀ s, y ≠ Value.String s) →
      XmlResponseResult.into (XmlResponseResult.Failure v)
        = Except.error (bailErr "Field \"faultString\" needs to be a string")) ∧
    bailErr "Field \"faultCode\" is missing in fault response"
      ≠ bailErr "Field \"faultCode\" needs to be an integer" ∧
    bailErr "Field \"faultString\" is missing in fault response"
      ≠ bailErr "Field \"faultString\" needs to be a string" := by
  refine ⟨?_, ?_, ?_, ?_, by decide, by decide⟩
  · intro v fields hv hnone
    have hc : (mapRemove fields "faultCode").1 = none := by
      rw [mapRemove_fst]; exact hnone
    rw [XmlResponseResult.into, hv]
    simp only []
    rw [hc]
  · intro v fields x hv hsome hx
    have hc : (mapRemove fields "faultCode").1 = some x := by
      rw [mapRemove_fst]; exact hsome
    rw [XmlResponseResult.into, hv]
    simp only []
    rw [hc]
    cases x with
    | Int c => exact absurd rfl (hx c)
    | Bool a => rfl
    | String a => rfl
    | Double a => rfl
    | DateTime a => rfl
    | Base64 a => rfl
    | Array a => rfl
    | Struct a => rfl
  · intro v fields code hv hcode hsnone
    have hc : (mapRemove fields "faultCode").1 = some (Value.Int code) := by
      rw [mapRemove_fst]; exact hcode
    have hm : (mapRemove (mapRemove fields "faultCode").2 "faultString").1 = none := by
      rw [mapRemove_fst, mapLookup_mapRemove_snd fields "faultCode" "faultString" (by decide)]
      exact hsnone
    rw [XmlResponseResult.into, hv]
    simp only []
    rw [hc]
    simp only []
    rw [hm]
  · intro v fields code y hv hcode hsome hy
    have hc : (mapRemove fields "faultCode").1 = some (Value.Int code) := by
      rw [mapRemove_fst]; exact hcode
    have hm : (mapRemove (mapRemove fields "faultCode").2 "faultString").1 = some y := by
      rw [mapRemove_fst, mapLookup_mapRemove_snd fields "faultCode" "faultString" (by decide)]
      exact hsome
    rw [XmlResponseResult.into, hv]
    simp only []
    rw [hc]
    simp only []
    rw [hm]
    cases y with
    | String s => exact absurd rfl (hy s)
    | Int a => rfl
    | Bool a => rfl
    | Double a => rfl
    | DateTime a => rfl
    | Base64 a => rfl
    | Array a => rfl
    | Struct a => rfl

/-- C5 witness: the four distinct fault-field failures evaluated at concrete
fault structs — faultCode missing, faultCode a string, faultString missing,
faultString an integer. -/
theorem fault_missing_vs_wrong_type_witness :
    XmlResponseResult.into (XmlResponseResult.Failure (XmlValue.Struct (XmlStruct.mk
        [XmlStructItem.mk "faultString" (XmlValue.Str "m")])))
      = Except.error (bailErr "Field \"faultCode\" is missing in fault response") ∧
    XmlResponseResult.into (XmlResponseResult.Failure (XmlValue.Struct (XmlStruct.mk
        [XmlStructItem.mk "faultCode" (XmlValue.Str "4")])))
      = Except.error (bailErr "Field \"faultCode\" needs to be an integer") ∧
    XmlResponseResult.into (XmlResponseResult.Failure (XmlValue.Struct (XmlStruct.mk
        [XmlStructItem.mk "faultCode" (XmlValue.Int 4)])))
      = Except.error (bailErr "Field \"faultString\" is missing in fault response") ∧
    XmlResponseResult.into (XmlResponseResult.Failure (XmlValue.Struct (XmlStruct.mk
        [XmlStructItem.mk "faultCode" (XmlValue.Int 4),
         XmlStructItem.mk "faultString" (XmlValue.Int 5)])))
      = Except.error (bailErr "Field \"faultString\" needs to be a string") :=
  ⟨fault_missing_vs_wrong_type.1 _ _ (by rfl) (by rfl),
   fault_missing_vs_wrong_type.2.1 _ _ (Value.String "4") (by rfl) (by rfl)
     (fun _ hc => Value.noConfusion hc),
   fault_missing_vs_wrong_type.2.2.1 _ _ 4 (by rfl) (by rfl) (by rfl),
   fault_missing_vs_wrong_type.2.2.2.1 _ _ 4 (Value.Int 5) (by rfl) (by rfl) (by rfl)
     (fun _ hs => Value.noConfusion hs)⟩

end XmlRpc
